import Mathlib

/-! Request/response logging interceptor (internal/interceptor/logger.go)

A shallow embedding of the two unary interceptors of `ReqRespLogger` and of
`formatLogValue`, together with the `GetUser` handler of `cmd/server/main.go`.

Conventions of the embedding

* The log sink and the clock are explicit state (`World`).  Every record handed
  to the logger is appended to the world's trace, in order; the trace also keeps
  one ghost event per invocation of the wrapped handler.
* A Go value of static type `any` is an `AnyValue`: the untyped nil, a value
  whose dynamic type implements `proto.Message`, a `json.RawMessage`, a
  `string`, or a value of any other dynamic type.
* A run of a `connect.UnaryFunc` either returns the Go pair `(res, err)`, each
  component possibly nil, or panics.
* Library functions that are not part of this repository
  (`protojson.MarshalOptions.Marshal`, `fmt.Sprintf("%v", _)`) are parameters.
-/

namespace Interceptor

/-! ## connect: status codes and errors -/

/-- Modelled from the spec: the status-code taxonomy `connect.Code` (a `uint32`
of the connect library, which is not part of this repository). -/
abbrev Code := Nat

def CodeCanceled : Code := 1
def CodeUnknown : Code := 2
def CodeInvalidArgument : Code := 3
def CodeDeadlineExceeded : Code := 4
def CodeNotFound : Code := 5
def CodeAlreadyExists : Code := 6
def CodePermissionDenied : Code := 7
def CodeResourceExhausted : Code := 8
def CodeFailedPrecondition : Code := 9
def CodeAborted : Code := 10
def CodeOutOfRange : Code := 11
def CodeUnimplemented : Code := 12
def CodeInternal : Code := 13
def CodeUnavailable : Code := 14
def CodeDataLoss : Code := 15
def CodeUnauthenticated : Code := 16

/-- Modelled from the spec: `connect.Code.String`, the string form of a status
code.  The library names the sixteen failure categories and renders every other
value, the success value 0 included, as `code_N`. -/
def Code.String (c : Code) : String :=
  match c with
  | 1 => "canceled"
  | 2 => "unknown"
  | 3 => "invalid_argument"
  | 4 => "deadline_exceeded"
  | 5 => "not_found"
  | 6 => "already_exists"
  | 7 => "permission_denied"
  | 8 => "resource_exhausted"
  | 9 => "failed_precondition"
  | 10 => "aborted"
  | 11 => "out_of_range"
  | 12 => "unimplemented"
  | 13 => "internal"
  | 14 => "unavailable"
  | 15 => "data_loss"
  | 16 => "unauthenticated"
  | n => "code_" ++ toString n

/-- A non-nil Go `error`: either an error whose chain holds a `*connect.Error`
with the given code, or any other error. -/
inductive Error where
  | connect (code : Code) (msg : String)
  | other (msg : String)
deriving DecidableEq, Repr

/-- The call `errors.New(text)`. -/
def errorsNew (text : String) : Error := .other text

/-- The message of an error (`err.Error()`), without the code prefix. -/
def Error.message : Error → String
  | .connect _ msg => msg
  | .other msg => msg

/-- Modelled from the spec: `connect.NewError(c, underlying)`, an error of the
taxonomy category `c` around `underlying`. -/
def NewError (c : Code) (underlying : Error) : Error := .connect c underlying.message

/-- Modelled from the spec: `connect.CodeOf(err)`, the code derived from a
non-nil error: the code of the connect error in its chain, `CodeUnknown` when
there is none. -/
def CodeOf : Error → Code
  | .connect c _ => c
  | .other _ => CodeUnknown

/-! ## Values, requests, responses -/

/-- A Go value of static type `any`.  `M` is the type of values whose dynamic
type implements `proto.Message`, `V` the type of all other payload values. -/
inductive AnyValue (M V : Type) where
  | nil
  | proto (m : M)
  | rawMessage (bytes : String)
  | string (s : String)
  | other (v : V)
deriving DecidableEq, Repr

/-- The result of `req.Spec()`; only the procedure name is read. -/
structure Spec where
  Procedure : String
deriving DecidableEq, Repr

/-- A non-nil `connect.AnyRequest`: `Spec()` and the payload returned by `Any()`. -/
structure AnyRequest (M V : Type) where
  Spec : Spec
  Any : AnyValue M V
deriving DecidableEq, Repr

/-- A non-nil `connect.AnyResponse`: the payload returned by `Any()`. -/
structure AnyResponse (M V : Type) where
  Any : AnyValue M V
deriving DecidableEq, Repr

/-! ## slog: levels, attributes, records -/

inductive Level where
  | Debug
  | Info
  | Warn
  | Error
deriving DecidableEq, Repr

/-- The value of a `slog.Attr` as built by `slog.String`, `slog.Duration` and
`slog.Any`; `slog.Any` is applied to payloads and to the handler's error. -/
inductive Value (M V : Type) where
  | String (s : String)
  | Duration (d : Int)
  | Any (v : AnyValue M V)
  | AnyError (e : Error)
deriving DecidableEq, Repr

structure Attr (M V : Type) where
  Key : String
  Value : Value M V
deriving DecidableEq, Repr

def slogString {M V : Type} (key value : String) : Attr M V := ⟨key, .String value⟩

def slogDuration {M V : Type} (key : String) (d : Int) : Attr M V := ⟨key, .Duration d⟩

def slogAny {M V : Type} (key : String) (v : AnyValue M V) : Attr M V := ⟨key, .Any v⟩

def slogAnyError {M V : Type} (key : String) (e : Error) : Attr M V := ⟨key, .AnyError e⟩

/-- One record handed to the logger. -/
structure Record (Ctx M V : Type) where
  ctx : Ctx
  Level : Level
  Message : String
  Attrs : List (Attr M V)
deriving DecidableEq, Repr

/-- The value of the first attribute with the given key. -/
def Record.attr {Ctx M V : Type} (r : Record Ctx M V) (key : String) : Option (Value M V) :=
  (r.Attrs.find? (fun a => a.Key == key)).map (fun a => a.Value)

/-- Whether the record carries an attribute with the given key. -/
def Record.hasAttr {Ctx M V : Type} (r : Record Ctx M V) (key : String) : Bool :=
  r.Attrs.any (fun a => a.Key == key)

/-! ## The world: clock and trace -/

/-- What the interceptor does to its collaborators: it hands a record to the
logger, or it invokes the wrapped handler with a context and a request. -/
inductive Event (Ctx M V : Type) where
  | log (r : Record Ctx M V)
  | invoke (ctx : Ctx) (req : AnyRequest M V)
deriving DecidableEq, Repr

/-- The state around a call: the clock reading (nanoseconds) and the trace of
events so far, oldest first. -/
structure World (Ctx M V : Type) where
  now : Nat
  trace : List (Event Ctx M V)
deriving DecidableEq, Repr

/-- The records handed to the logger so far, oldest first. -/
def World.records {Ctx M V : Type} (w : World Ctx M V) : List (Record Ctx M V) :=
  w.trace.filterMap (fun e => match e with
    | .log r => some r
    | .invoke _ _ => none)

/-- The handler invocations so far, oldest first. -/
def World.invocations {Ctx M V : Type} (w : World Ctx M V) : List (Ctx × AnyRequest M V) :=
  w.trace.filterMap (fun e => match e with
    | .log _ => none
    | .invoke c r => some (c, r))

/-- The call `logger.LogAttrs(ctx, level, msg, attrs...)`. -/
def LogAttrs {Ctx M V : Type} (w : World Ctx M V) (ctx : Ctx) (level : Level) (msg : String)
    (attrs : List (Attr M V)) : World Ctx M V :=
  { w with trace := w.trace ++ [.log ⟨ctx, level, msg, attrs⟩] }

/-- The call `logger.InfoContext(ctx, msg, attrs...)`. -/
def InfoContext {Ctx M V : Type} (w : World Ctx M V) (ctx : Ctx) (msg : String)
    (attrs : List (Attr M V)) : World Ctx M V :=
  LogAttrs w ctx .Info msg attrs

/-- The call `logger.ErrorContext(ctx, msg, attrs...)`. -/
def ErrorContext {Ctx M V : Type} (w : World Ctx M V) (ctx : Ctx) (msg : String)
    (attrs : List (Attr M V)) : World Ctx M V :=
  LogAttrs w ctx .Error msg attrs

/-- The ghost event of handing control to the wrapped handler. -/
def World.invoked {Ctx M V : Type} (w : World Ctx M V) (ctx : Ctx) (req : AnyRequest M V) :
    World Ctx M V :=
  { w with trace := w.trace ++ [.invoke ctx req] }

/-- The call `time.Since(start)` as a `time.Duration`. -/
def Since {Ctx M V : Type} (w : World Ctx M V) (start : Nat) : Int :=
  (w.now : Int) - (start : Int)

/-! ## Unary functions -/

/-- How a run of a unary function ends: it returns the Go pair `(res, err)`,
where `none` is nil, or it panics.  A nil response is the nil interface or a
nil pointer held in it: calling `Any()` on either is a nil dereference. -/
inductive Outcome (M V : Type) where
  | ret (res : Option (AnyResponse M V)) (err : Option Error)
  | panic (msg : String)
deriving DecidableEq, Repr

/-- The type `connect.UnaryFunc`, in state-passing style. -/
abbrev UnaryFunc (Ctx M V : Type) :=
  Ctx → AnyRequest M V → World Ctx M V → Outcome M V × World Ctx M V

/-! ## formatLogValue -/

/-- The fields of `protojson.MarshalOptions` (the resolver apart); an omitted
field has its zero value. -/
structure MarshalOptions where
  Multiline : Bool := false
  Indent : String := ""
  AllowPartial : Bool := false
  UseProtoNames : Bool := false
  UseEnumNumbers : Bool := false
  EmitUnpopulated : Bool := false
  EmitDefaultValues : Bool := false
deriving DecidableEq, Repr

/-- The method `protojson.MarshalOptions.Marshal`, a parameter of the
embedding: the JSON text or an error. -/
abbrev Marshaler (M : Type) := MarshalOptions → M → Except String String

/-- The run of `formatLogValue(msg)`: the value it returns and the calls of the
serializer it makes, in order. -/
def formatLogValueRun {M V : Type} (marshal : Marshaler M) (sprintv : M → String)
    (msg : AnyValue M V) : AnyValue M V × List (MarshalOptions × M) :=
  match msg with
  | .proto protoMsg =>
    let marshaler : MarshalOptions := { Multiline := false, EmitUnpopulated := false }
    match marshal marshaler protoMsg with
    | .ok jsonBytes => (.rawMessage jsonBytes, [(marshaler, protoMsg)])
    | .error _ => (.string (sprintv protoMsg), [(marshaler, protoMsg)])
  | notProto => (notProto, [])

/-- The function `formatLogValue`. -/
def formatLogValue {M V : Type} (marshal : Marshaler M) (sprintv : M → String)
    (msg : AnyValue M V) : AnyValue M V :=
  (formatLogValueRun marshal sprintv msg).1

/-! ## The interceptors -/

/-- The method `ReqRespLogger.NewUnaryInterceptorWithEmptyBody`, applied to the
wrapped handler `next`.  `res.Any()` on a nil response panics. -/
def NewUnaryInterceptorWithEmptyBody {Ctx M V : Type} (next : UnaryFunc Ctx M V) :
    UnaryFunc Ctx M V :=
  fun ctx req w =>
    let start := w.now
    let w1 := InfoContext w ctx "request Start"
      [slogString "procedure" req.Spec.Procedure, slogAny "request_body" req.Any]
    match next ctx req (w1.invoked ctx req) with
    | (.panic p, w2) => (.panic p, w2)
    | (.ret res err, w2) =>
      let code : Code :=
        match err with
        | some e => CodeOf e
        | none => 0
      let attrs : List (Attr M V) :=
        [slogString "procedure" req.Spec.Procedure,
         slogDuration "duration" (Since w2 start),
         slogString "code" (Code.String code)]
      match err with
      | some e =>
        (.ret res err,
          LogAttrs w2 ctx .Error "request end with error" (attrs ++ [slogAnyError "error" e]))
      | none =>
        match res with
        | none => (.panic "invalid memory address or nil pointer dereference", w2)
        | some r =>
          (.ret res err,
            LogAttrs w2 ctx .Info "request end" (attrs ++ [slogAny "response_body" r.Any]))

/-- The method `ReqRespLogger.NewUnaryInterceptorWithBody`, applied to the
wrapped handler `next`.  `res.Any()` on a nil response panics. -/
def NewUnaryInterceptorWithBody {Ctx M V : Type} (marshal : Marshaler M) (sprintv : M → String)
    (next : UnaryFunc Ctx M V) : UnaryFunc Ctx M V :=
  fun ctx req w =>
    let start := w.now
    let w1 := InfoContext w ctx "request Start"
      [slogString "procedure" req.Spec.Procedure,
       slogAny "request_body" (formatLogValue marshal sprintv req.Any)]
    match next ctx req (w1.invoked ctx req) with
    | (.panic p, w2) => (.panic p, w2)
    | (.ret res err, w2) =>
      let code : Code :=
        match err with
        | some e => CodeOf e
        | none => 0
      let attrs : List (Attr M V) :=
        [slogString "procedure" req.Spec.Procedure,
         slogDuration "duration" (Since w2 start),
         slogString "code" (Code.String code)]
      match err with
      | some e =>
        (.ret res err,
          LogAttrs w2 ctx .Error "request end with error" (attrs ++ [slogAnyError "error" e]))
      | none =>
        match res with
        | none => (.panic "invalid memory address or nil pointer dereference", w2)
        | some r =>
          (.ret res err,
            LogAttrs w2 ctx .Info "request end"
              (attrs ++ [slogAny "response_body" (formatLogValue marshal sprintv r.Any)]))

/-- The choice `main` makes from the `parsed` flag: the interceptor with
formatted bodies when it is set, the one with unformatted bodies otherwise. -/
def selectInterceptor {Ctx M V : Type} (marshal : Marshaler M) (sprintv : M → String)
    (parsed : Bool) : UnaryFunc Ctx M V → UnaryFunc Ctx M V :=
  if parsed then NewUnaryInterceptorWithBody marshal sprintv
  else NewUnaryInterceptorWithEmptyBody

/-! ## Vocabulary of the statements -/

/-- The value logged for a payload in the given mode: `formatLogValue` of it
when `parsed`, the payload itself otherwise. -/
def loggedBody {M V : Type} (marshal : Marshaler M) (sprintv : M → String) (parsed : Bool)
    (v : AnyValue M V) : AnyValue M V :=
  if parsed then formatLogValue marshal sprintv v else v

/-- The start record of a call. -/
def startRecord {Ctx M V : Type} (marshal : Marshaler M) (sprintv : M → String) (parsed : Bool)
    (ctx : Ctx) (req : AnyRequest M V) : Record Ctx M V :=
  ⟨ctx, .Info, "request Start",
    [slogString "procedure" req.Spec.Procedure,
     slogAny "request_body" (loggedBody marshal sprintv parsed req.Any)]⟩

/-- The world in which the wrapped handler is invoked: the start record has
been handed to the logger and control passes to the handler. -/
def entryWorld {Ctx M V : Type} (marshal : Marshaler M) (sprintv : M → String) (parsed : Bool)
    (ctx : Ctx) (req : AnyRequest M V) (w : World Ctx M V) : World Ctx M V :=
  { w with trace := w.trace ++ [.log (startRecord marshal sprintv parsed ctx req), .invoke ctx req] }

/-- The code logged for a handler error: the success value 0 for nil. -/
def codeFor (err : Option Error) : Code :=
  match err with
  | some e => CodeOf e
  | none => 0

/-- Whether a handler result lets the call reach its end record: it has an
error, or it has a response. -/
def Completes {M V : Type} (res : Option (AnyResponse M V)) (err : Option Error) : Prop :=
  (res.isSome || err.isSome) = true

instance {M V : Type} (res : Option (AnyResponse M V)) (err : Option Error) :
    Decidable (Completes res err) :=
  inferInstanceAs (Decidable ((res.isSome || err.isSome) = true))

/-- The end record of a call whose handler returned the error `e`, logged in
the world `w2` the handler left, for a call that started at clock reading
`start`. -/
def errorEndRecord {Ctx M V : Type} (ctx : Ctx) (req : AnyRequest M V) (w2 : World Ctx M V)
    (start : Nat) (e : Error) : Record Ctx M V :=
  ⟨ctx, .Error, "request end with error",
    [slogString "procedure" req.Spec.Procedure,
     slogDuration "duration" (Since w2 start),
     slogString "code" (Code.String (CodeOf e)),
     slogAnyError "error" e]⟩

/-- The end record of a call whose handler returned the response `r` and no
error. -/
def successEndRecord {Ctx M V : Type} (marshal : Marshaler M) (sprintv : M → String)
    (parsed : Bool) (ctx : Ctx) (req : AnyRequest M V) (w2 : World Ctx M V) (start : Nat)
    (r : AnyResponse M V) : Record Ctx M V :=
  ⟨ctx, .Info, "request end",
    [slogString "procedure" req.Spec.Procedure,
     slogDuration "duration" (Since w2 start),
     slogString "code" (Code.String 0),
     slogAny "response_body" (loggedBody marshal sprintv parsed r.Any)]⟩

/-- The values logged under the given key, over all records, oldest first. -/
def World.attrValues {Ctx M V : Type} (w : World Ctx M V) (key : String) : List (Value M V) :=
  w.records.filterMap (fun r => r.attr key)

/-! ## cmd/server/main.go: the GetUser handler -/

namespace MyService

/-- Modelled from the spec: the generated message `myservice.GetUserRequest`
(gen/go/myservice/v1 is not part of the sources); a field is set or unset. -/
structure GetUserRequest where
  user_id : Option String
deriving DecidableEq, Repr

/-- Modelled from the spec: the generated message `myservice.User`. -/
structure User where
  user_id : Option String
  name : Option String
deriving DecidableEq, Repr

/-- Modelled from the spec: the generated message `myservice.GetUserResponse`. -/
structure GetUserResponse where
  user : Option User
deriving DecidableEq, Repr

/-- The getter `GetUserId`: the empty string for an unset field. -/
def GetUserRequest.GetUserId (m : GetUserRequest) : String := m.user_id.getD ""

def User.SetUserId (m : User) (v : String) : User := { m with user_id := some v }

def User.SetName (m : User) (v : String) : User := { m with name := some v }

def GetUserResponse.SetUser (m : GetUserResponse) (v : User) : GetUserResponse :=
  { m with user := some v }

/-- The messages of the service: the values that implement `proto.Message`. -/
inductive Message where
  | GetUserRequest (m : GetUserRequest)
  | User (m : User)
  | GetUserResponse (m : GetUserResponse)
deriving DecidableEq, Repr

/-- The method `myServiceImpl.GetUser` on a typed request. -/
def GetUser {Ctx V : Type} (ctx : Ctx) (req : GetUserRequest) (w : World Ctx Message V) :
    Outcome Message V × World Ctx Message V :=
  let w1 := InfoContext w ctx "--- [Server Logic] GetUser called ---" []
  let userId := req.GetUserId
  if userId = "error" then
    let w2 := ErrorContext w1 ctx "User not found" [slogString "userId" userId]
    (.ret none (some (NewError CodeNotFound (errorsNew "user not found"))), w2)
  else
    let user : User := { user_id := none, name := none }
    let user := user.SetUserId userId
    let user := user.SetName "haru256"
    let resp : GetUserResponse := { user := none }
    let resp := resp.SetUser user
    (.ret (some ⟨.proto (.GetUserResponse resp)⟩) none, w1)

/-- Modelled from the spec: the untyped unary function that the generated
`NewMyServiceHandler` builds around `GetUser`; a request of another type is
answered with an internal error. -/
def GetUserHandler {Ctx V : Type} : UnaryFunc Ctx Message V :=
  fun ctx req w =>
    match req.Any with
    | .proto (.GetUserRequest m) => GetUser ctx m w
    | _ => (.ret none (some (.connect CodeInternal "unexpected handler request type")), w)

/-! ### Concrete inputs -/

/-- JSON escaping of one character of a string, as the serializer writes it
for the quote, the backslash and the named control characters. -/
def escapeChar (c : Char) : String :=
  if c = Char.ofNat 34 then "\\\""
  else if c = Char.ofNat 92 then "\\\\"
  else if c = Char.ofNat 8 then "\\b"
  else if c = Char.ofNat 12 then "\\f"
  else if c = Char.ofNat 10 then "\\n"
  else if c = Char.ofNat 13 then "\\r"
  else if c = Char.ofNat 9 then "\\t"
  else String.singleton c

def jsonString (s : String) : String :=
  "\"" ++ String.join (s.toList.map escapeChar) ++ "\""

/-- One member of a compact JSON object for a string field: written when the
field is set, and as the empty string when unset fields are to be emitted. -/
def stringMember (emitUnpopulated : Bool) (name : String) (v : Option String) : List String :=
  match v with
  | some s => [jsonString name ++ ":" ++ jsonString s]
  | none => if emitUnpopulated then [jsonString name ++ ":" ++ jsonString ""] else []

def jsonObject (members : List String) : String :=
  "\x7b" ++ ",".intercalate members ++ "\x7d"

def userJSON (emitUnpopulated : Bool) (u : User) : String :=
  jsonObject (stringMember emitUnpopulated "userId" u.user_id
    ++ stringMember emitUnpopulated "name" u.name)

/-- Modelled from the spec: the structured serializer on the messages of the
service, in its single-line form: set fields under their JSON names, unset
fields only when `EmitUnpopulated` asks for them.  The multi-line form is
outside this sample and reported as an error. -/
def sampleMarshal : Marshaler Message :=
  fun opts m =>
    if opts.Multiline then .error "multi-line output is outside this sample"
    else
      match m with
      | .GetUserRequest r =>
        .ok (jsonObject (stringMember opts.EmitUnpopulated "userId" r.user_id))
      | .User u => .ok (userJSON opts.EmitUnpopulated u)
      | .GetUserResponse r =>
        match r.user with
        | some u => .ok (jsonObject [jsonString "user" ++ ":" ++ userJSON opts.EmitUnpopulated u])
        | none =>
          .ok (jsonObject (if opts.EmitUnpopulated then [jsonString "user" ++ ":null"] else []))

/-- A serializer that is forced to fail on every message. -/
def failingMarshal : Marshaler Message :=
  fun _ _ => .error "proto: invalid UTF-8"

/-- A sample of the generic text form of a message (the `%v` rendering). -/
def sampleSprintv : Message → String
  | .GetUserRequest r => "user_id:" ++ jsonString r.GetUserId
  | .User u => "user_id:" ++ jsonString (u.user_id.getD "") ++ " name:" ++ jsonString (u.name.getD "")
  | .GetUserResponse _ => "user:\x7b\x7d"

/-- A request of the GetUser procedure with the given user id. -/
def getUserRequest (userId : String) : AnyRequest Message Unit :=
  { Spec := ⟨"/myservice.v1.MyService/GetUser"⟩,
    Any := .proto (.GetUserRequest ⟨some userId⟩) }

/-- A handler that returns no response and no error: the Go pair `(nil, nil)`. -/
def nilHandler : UnaryFunc Unit Message Unit :=
  fun _ _ w => (.ret none none, w)

/-- A world with an empty trace at clock reading 0. -/
def world0 : World Unit Message Unit := { now := 0, trace := [] }

end MyService

/-! ## How a call runs, by the handler's outcome -/

section Run

variable {Ctx M V : Type} (marshal : Marshaler M) (sprintv : M → String) (parsed : Bool)
  (next : UnaryFunc Ctx M V) (ctx : Ctx) (req : AnyRequest M V) (w w2 : World Ctx M V)

theorem entryWorld_false :
    entryWorld marshal sprintv false ctx req w =
      (InfoContext w ctx "request Start"
        [slogString "procedure" req.Spec.Procedure,
         slogAny "request_body" req.Any]).invoked ctx req := by
  simp [entryWorld, startRecord, loggedBody, InfoContext, LogAttrs, World.invoked]

theorem entryWorld_true :
    entryWorld marshal sprintv true ctx req w =
      (InfoContext w ctx "request Start"
        [slogString "procedure" req.Spec.Procedure,
         slogAny "request_body" (formatLogValue marshal sprintv req.Any)]).invoked ctx req := by
  simp [entryWorld, startRecord, loggedBody, InfoContext, LogAttrs, World.invoked]

theorem select_false :
    selectInterceptor marshal sprintv false next = NewUnaryInterceptorWithEmptyBody next := by
  simp [selectInterceptor]

theorem select_true :
    selectInterceptor marshal sprintv true next =
      NewUnaryInterceptorWithBody marshal sprintv next := by
  simp [selectInterceptor]

theorem run_panic (p : String)
    (h : next ctx req (entryWorld marshal sprintv parsed ctx req w) = (.panic p, w2)) :
    selectInterceptor marshal sprintv parsed next ctx req w = (.panic p, w2) := by
  cases parsed
  · rw [entryWorld_false] at h
    rw [select_false]
    simp only [NewUnaryInterceptorWithEmptyBody, h]
  · rw [entryWorld_true] at h
    rw [select_true]
    simp only [NewUnaryInterceptorWithBody, h]

theorem run_error (res : Option (AnyResponse M V)) (e : Error)
    (h : next ctx req (entryWorld marshal sprintv parsed ctx req w) = (.ret res (some e), w2)) :
    selectInterceptor marshal sprintv parsed next ctx req w =
      (.ret res (some e),
        { w2 with trace := w2.trace ++ [.log (errorEndRecord ctx req w2 w.now e)] }) := by
  cases parsed
  · rw [entryWorld_false] at h
    rw [select_false]
    simp only [NewUnaryInterceptorWithEmptyBody, h]
    simp [errorEndRecord, LogAttrs]
  · rw [entryWorld_true] at h
    rw [select_true]
    simp only [NewUnaryInterceptorWithBody, h]
    simp [errorEndRecord, LogAttrs]

theorem run_success (r : AnyResponse M V)
    (h : next ctx req (entryWorld marshal sprintv parsed ctx req w) = (.ret (some r) none, w2)) :
    selectInterceptor marshal sprintv parsed next ctx req w =
      (.ret (some r) none,
        { w2 with trace := w2.trace ++
            [.log (successEndRecord marshal sprintv parsed ctx req w2 w.now r)] }) := by
  cases parsed
  · rw [entryWorld_false] at h
    rw [select_false]
    simp only [NewUnaryInterceptorWithEmptyBody, h]
    simp [successEndRecord, LogAttrs, loggedBody]
  · rw [entryWorld_true] at h
    rw [select_true]
    simp only [NewUnaryInterceptorWithBody, h]
    simp [successEndRecord, LogAttrs, loggedBody]

theorem run_nil
    (h : next ctx req (entryWorld marshal sprintv parsed ctx req w) = (.ret none none, w2)) :
    selectInterceptor marshal sprintv parsed next ctx req w =
      (.panic "invalid memory address or nil pointer dereference", w2) := by
  cases parsed
  · rw [entryWorld_false] at h
    rw [select_false]
    simp only [NewUnaryInterceptorWithEmptyBody, h]
  · rw [entryWorld_true] at h
    rw [select_true]
    simp only [NewUnaryInterceptorWithBody, h]

/-- Whatever the handler does, the trace it leaves is kept, and the interceptor
adds at most one event after it. -/
theorem run_trace_tail :
    ∃ tail : List (Event Ctx M V), tail.length ≤ 1 ∧
      (selectInterceptor marshal sprintv parsed next ctx req w).2.trace =
        (next ctx req (entryWorld marshal sprintv parsed ctx req w)).2.trace ++ tail := by
  rcases hn : next ctx req (entryWorld marshal sprintv parsed ctx req w) with ⟨o, w3⟩
  cases o with
  | panic p =>
    rw [run_panic marshal sprintv parsed next ctx req w w3 p hn]
    exact ⟨[], by simp, by simp⟩
  | ret res err =>
    cases err with
    | some e =>
      rw [run_error marshal sprintv parsed next ctx req w w3 res e hn]
      exact ⟨[.log (errorEndRecord ctx req w3 w.now e)], by simp, rfl⟩
    | none =>
      cases res with
      | none =>
        rw [run_nil marshal sprintv parsed next ctx req w w3 hn]
        exact ⟨[], by simp, by simp⟩
      | some r =>
        rw [run_success marshal sprintv parsed next ctx req w w3 r hn]
        exact ⟨[.log (successEndRecord marshal sprintv parsed ctx req w3 w.now r)], by simp, rfl⟩

end Run

/-! ## Transparency (C1) -/

/-- C1, as amended: for every wrapped handler, context and request, in both
modes, when the handler returns a pair with an error or with a response, the
wrapped call returns exactly that pair, neither component altered. -/
theorem C1_transparency {Ctx M V : Type} (marshal : Marshaler M) (sprintv : M → String)
    (parsed : Bool) (next : UnaryFunc Ctx M V) (ctx : Ctx) (req : AnyRequest M V)
    (w : World Ctx M V) (res : Option (AnyResponse M V)) (err : Option Error)
    (h : (next ctx req (entryWorld marshal sprintv parsed ctx req w)).1 = .ret res err)
    (hc : Completes res err) :
    (selectInterceptor marshal sprintv parsed next ctx req w).1 = .ret res err := by
  rcases hn : next ctx req (entryWorld marshal sprintv parsed ctx req w) with ⟨o, w2⟩
  rw [hn] at h
  simp only at h
  subst h
  cases err with
  | some e => rw [run_error marshal sprintv parsed next ctx req w w2 res e hn]
  | none =>
    cases res with
    | none => exact absurd hc (by simp [Completes])
    | some r => rw [run_success marshal sprintv parsed next ctx req w w2 r hn]

/-- C1 at a concrete input: the GetUser handler behind the interceptor with
formatted bodies, asked for user u1. -/
theorem C1_transparency_witness :
    Completes (M := MyService.Message) (V := Unit)
        (some ⟨.proto (.GetUserResponse ⟨some ⟨some "u1", some "haru256"⟩⟩)⟩) none ∧
      (selectInterceptor MyService.sampleMarshal MyService.sampleSprintv true
          MyService.GetUserHandler () (MyService.getUserRequest "u1") MyService.world0).1 =
        .ret (some ⟨.proto (.GetUserResponse ⟨some ⟨some "u1", some "haru256"⟩⟩)⟩) none :=
  ⟨by decide,
    C1_transparency MyService.sampleMarshal MyService.sampleSprintv true
      MyService.GetUserHandler () (MyService.getUserRequest "u1") MyService.world0 _ _
      (by rfl) (by decide)⟩

/-- C1 as stated fails: a handler that returns the pair (nil, nil) has its
result replaced by a panic, in both modes. -/
theorem C1_transparency_counterexample :
    (MyService.nilHandler () (MyService.getUserRequest "u1") MyService.world0).1 =
        .ret none none ∧
      (NewUnaryInterceptorWithEmptyBody MyService.nilHandler ()
          (MyService.getUserRequest "u1") MyService.world0).1 ≠ .ret none none ∧
      (NewUnaryInterceptorWithBody MyService.sampleMarshal MyService.sampleSprintv
          MyService.nilHandler () (MyService.getUserRequest "u1") MyService.world0).1 ≠
        .ret none none := by
  refine ⟨rfl, ?_, ?_⟩ <;> simp [NewUnaryInterceptorWithEmptyBody, NewUnaryInterceptorWithBody,
    MyService.nilHandler]

/-! ## No fatal path (C10) -/

/-- C10, as amended: for every wrapped handler and request, in both modes, the
interceptor does not fail on a result that has an error (with or without a
response) or that has a response: the wrapped call returns too, with the
handler's outcome.  On the result with no error and a nil response it panics
where it reads the response. -/
theorem C10_no_fatal_path {Ctx M V : Type} (marshal : Marshaler M) (sprintv : M → String)
    (parsed : Bool) (next : UnaryFunc Ctx M V) (ctx : Ctx) (req : AnyRequest M V)
    (w w2 : World Ctx M V) (res : Option (AnyResponse M V)) (err : Option Error)
    (h : next ctx req (entryWorld marshal sprintv parsed ctx req w) = (.ret res err, w2)) :
    (Completes res err →
        (selectInterceptor marshal sprintv parsed next ctx req w).1 = .ret res err ∧
        ∀ p, (selectInterceptor marshal sprintv parsed next ctx req w).1 ≠ .panic p) ∧
      (err ≠ none → res = none →
        (selectInterceptor marshal sprintv parsed next ctx req w).1 = .ret none err) ∧
      (¬ Completes res err →
        (selectInterceptor marshal sprintv parsed next ctx req w).1 =
          .panic "invalid memory address or nil pointer dereference") := by
  cases err with
  | some e =>
    rw [run_error marshal sprintv parsed next ctx req w w2 res e h]
    refine ⟨fun _ => ⟨rfl, fun p hp => by simp at hp⟩, fun _ hr => by simp [hr], fun hn => ?_⟩
    exact absurd (by simp [Completes]) hn
  | none =>
    cases res with
    | none =>
      rw [run_nil marshal sprintv parsed next ctx req w w2 h]
      refine ⟨fun hc => absurd hc (by simp [Completes]), fun he => absurd rfl he, fun _ => rfl⟩
    | some r =>
      rw [run_success marshal sprintv parsed next ctx req w w2 r h]
      refine ⟨fun _ => ⟨rfl, fun p hp => by simp at hp⟩, fun he => absurd rfl he, fun hn => ?_⟩
      exact absurd (by simp [Completes]) hn

/-- C10 at a concrete input: the GetUser handler asked for the user "error"
returns a not-found error and a nil response, and the wrapped call returns the
same. -/
theorem C10_no_fatal_path_witness :
    (selectInterceptor MyService.sampleMarshal MyService.sampleSprintv false
        MyService.GetUserHandler () (MyService.getUserRequest "error") MyService.world0).1 =
      .ret none (some (NewError CodeNotFound (errorsNew "user not found"))) :=
  ((C10_no_fatal_path MyService.sampleMarshal MyService.sampleSprintv false
      MyService.GetUserHandler () (MyService.getUserRequest "error") MyService.world0
      (MyService.GetUserHandler () (MyService.getUserRequest "error")
        (entryWorld MyService.sampleMarshal MyService.sampleSprintv false ()
          (MyService.getUserRequest "error") MyService.world0)).2
      none (some (NewError CodeNotFound (errorsNew "user not found"))) (by rfl)).2.1
    (by simp) rfl)

/-- C10 as stated fails: on a handler result with no error and a nil response
the interceptor panics, in both modes, although the handler returned. -/
theorem C10_no_fatal_path_counterexample :
    (NewUnaryInterceptorWithBody MyService.sampleMarshal MyService.sampleSprintv
        MyService.nilHandler () (MyService.getUserRequest "u1") MyService.world0).1 =
      .panic "invalid memory address or nil pointer dereference" ∧
    (NewUnaryInterceptorWithEmptyBody MyService.nilHandler ()
        (MyService.getUserRequest "u1") MyService.world0).1 =
      .panic "invalid memory address or nil pointer dereference" := by
  constructor <;> rfl

/-! ## Call trace (C9) -/

/-- C9, as amended: for every call, in both modes, whose handler returns an
error or a response, the interceptor performs exactly the sequence: start
record, one invocation of the handler with the context and the request it
received itself, end record.  Both records carry the procedure name of the
request; whatever the handler adds to the trace lies between the two. -/
theorem C9_call_trace {Ctx M V : Type} (marshal : Marshaler M) (sprintv : M → String)
    (parsed : Bool) (next : UnaryFunc Ctx M V) (ctx : Ctx) (req : AnyRequest M V)
    (w w2 : World Ctx M V) (res : Option (AnyResponse M V)) (err : Option Error)
    (h : next ctx req (entryWorld marshal sprintv parsed ctx req w) = (.ret res err, w2))
    (hc : Completes res err) :
    ∃ s e : Record Ctx M V,
      (entryWorld marshal sprintv parsed ctx req w).trace =
          w.trace ++ [.log s, .invoke ctx req] ∧
        (selectInterceptor marshal sprintv parsed next ctx req w).2.trace =
          w2.trace ++ [.log e] ∧
        s.attr "procedure" = some (.String req.Spec.Procedure) ∧
        e.attr "procedure" = some (.String req.Spec.Procedure) ∧
        (∀ evs, w2.trace = (entryWorld marshal sprintv parsed ctx req w).trace ++ evs →
          (selectInterceptor marshal sprintv parsed next ctx req w).2.trace =
            w.trace ++ [.log s, .invoke ctx req] ++ evs ++ [.log e]) ∧
        (w2.trace = (entryWorld marshal sprintv parsed ctx req w).trace →
          (selectInterceptor marshal sprintv parsed next ctx req w).2.records =
              w.records ++ [s, e] ∧
            (selectInterceptor marshal sprintv parsed next ctx req w).2.invocations =
              w.invocations ++ [(ctx, req)]) := by
  have key : ∀ e : Record Ctx M V,
      (selectInterceptor marshal sprintv parsed next ctx req w).2.trace = w2.trace ++ [.log e] →
      e.attr "procedure" = some (.String req.Spec.Procedure) →
      ∃ s e : Record Ctx M V,
        (entryWorld marshal sprintv parsed ctx req w).trace =
            w.trace ++ [.log s, .invoke ctx req] ∧
          (selectInterceptor marshal sprintv parsed next ctx req w).2.trace =
            w2.trace ++ [.log e] ∧
          s.attr "procedure" = some (.String req.Spec.Procedure) ∧
          e.attr "procedure" = some (.String req.Spec.Procedure) ∧
          (∀ evs, w2.trace = (entryWorld marshal sprintv parsed ctx req w).trace ++ evs →
            (selectInterceptor marshal sprintv parsed next ctx req w).2.trace =
              w.trace ++ [.log s, .invoke ctx req] ++ evs ++ [.log e]) ∧
          (w2.trace = (entryWorld marshal sprintv parsed ctx req w).trace →
            (selectInterceptor marshal sprintv parsed next ctx req w).2.records =
                w.records ++ [s, e] ∧
              (selectInterceptor marshal sprintv parsed next ctx req w).2.invocations =
                w.invocations ++ [(ctx, req)]) := by
    intro e he hp
    refine ⟨startRecord marshal sprintv parsed ctx req, e, rfl, he, ?_, hp, ?_, ?_⟩
    · simp [Record.attr, startRecord, slogString, slogAny]
    · intro evs hev
      rw [he, hev]
      simp [entryWorld]
    · intro hev
      simp [World.records, World.invocations, he, hev, entryWorld, List.filterMap_append]
  cases err with
  | some e =>
    refine key (errorEndRecord ctx req w2 w.now e) ?_ ?_
    · rw [run_error marshal sprintv parsed next ctx req w w2 res e h]
    · simp [Record.attr, errorEndRecord, slogString, slogDuration, slogAnyError]
  | none =>
    cases res with
    | none => exact absurd hc (by simp [Completes])
    | some r =>
      refine key (successEndRecord marshal sprintv parsed ctx req w2 w.now r) ?_ ?_
      · rw [run_success marshal sprintv parsed next ctx req w w2 r h]
      · simp [Record.attr, successEndRecord, slogString, slogDuration, slogAny]

/-- C9 at a concrete input: the GetUser handler asked for user u1 behind the
interceptor with formatted bodies. -/
theorem C9_call_trace_witness :
    ∃ s e : Record Unit MyService.Message Unit,
      (selectInterceptor MyService.sampleMarshal MyService.sampleSprintv true
          MyService.GetUserHandler () (MyService.getUserRequest "u1") MyService.world0).2.trace =
        [.log s, .invoke () (MyService.getUserRequest "u1"),
         .log ⟨(), .Info, "--- [Server Logic] GetUser called ---", []⟩, .log e] ∧
      s.attr "procedure" = some (.String "/myservice.v1.MyService/GetUser") ∧
      e.attr "procedure" = some (.String "/myservice.v1.MyService/GetUser") := by
  obtain ⟨s, e, _, _, hs, he, hevs, _⟩ :=
    C9_call_trace MyService.sampleMarshal MyService.sampleSprintv true
      MyService.GetUserHandler () (MyService.getUserRequest "u1") MyService.world0
      (MyService.GetUserHandler () (MyService.getUserRequest "u1")
        (entryWorld MyService.sampleMarshal MyService.sampleSprintv true ()
          (MyService.getUserRequest "u1") MyService.world0)).2
      (some ⟨.proto (.GetUserResponse ⟨some ⟨some "u1", some "haru256"⟩⟩)⟩) none
      (by rfl) (by decide)
  exact ⟨s, e, hevs [.log ⟨(), .Info, "--- [Server Logic] GetUser called ---", []⟩] (by rfl),
    hs, he⟩

/-- C9 as stated fails: behind a handler that returns the pair (nil, nil) the
call leaves one log record, the start record, and no end record. -/
theorem C9_call_trace_counterexample :
    (NewUnaryInterceptorWithEmptyBody MyService.nilHandler ()
        (MyService.getUserRequest "u1") MyService.world0).2.trace =
      [.log ⟨(), .Info, "request Start",
          [slogString "procedure" "/myservice.v1.MyService/GetUser",
           slogAny "request_body" (.proto (.GetUserRequest ⟨some "u1"⟩))]⟩,
        .invoke () (MyService.getUserRequest "u1")] ∧
    (NewUnaryInterceptorWithEmptyBody MyService.nilHandler ()
        (MyService.getUserRequest "u1") MyService.world0).2.records.length = 1 := by
  constructor <;> rfl

/-! ## The bodies logged without formatting (C2) -/

/-- C2, as amended: for every request and every successful response, the
interceptor built by NewUnaryInterceptorWithEmptyBody hands to the logger, as
request_body, the payload of the request itself and, as response_body, the
payload of the response itself, both unformatted. -/
theorem C2_unformatted_bodies {Ctx M V : Type} (marshal : Marshaler M) (sprintv : M → String)
    (next : UnaryFunc Ctx M V) (ctx : Ctx) (req : AnyRequest M V)
    (w w2 : World Ctx M V) (r : AnyResponse M V)
    (h : next ctx req (entryWorld marshal sprintv false ctx req w) = (.ret (some r) none, w2)) :
    ∃ s e : Record Ctx M V,
      (entryWorld marshal sprintv false ctx req w).trace =
          w.trace ++ [.log s, .invoke ctx req] ∧
        (NewUnaryInterceptorWithEmptyBody next ctx req w).2.trace = w2.trace ++ [.log e] ∧
        s.attr "request_body" = some (.Any req.Any) ∧
        e.attr "response_body" = some (.Any r.Any) := by
  refine ⟨startRecord marshal sprintv false ctx req,
    successEndRecord marshal sprintv false ctx req w2 w.now r, rfl, ?_, ?_, ?_⟩
  · rw [← select_false marshal sprintv next,
      run_success marshal sprintv false next ctx req w w2 r h]
  · simp [Record.attr, startRecord, slogString, slogAny, loggedBody]
  · simp [Record.attr, successEndRecord, slogString, slogDuration, slogAny, loggedBody]

/-- C2 at a concrete input: the GetUser handler asked for user u1. -/
theorem C2_unformatted_bodies_witness :
    ∃ s e : Record Unit MyService.Message Unit,
      (NewUnaryInterceptorWithEmptyBody MyService.GetUserHandler ()
          (MyService.getUserRequest "u1") MyService.world0).2.trace =
        [.log s, .invoke () (MyService.getUserRequest "u1"),
         .log ⟨(), .Info, "--- [Server Logic] GetUser called ---", []⟩, .log e] ∧
      s.attr "request_body" = some (.Any (.proto (.GetUserRequest ⟨some "u1"⟩))) ∧
      e.attr "response_body" =
        some (.Any (.proto (.GetUserResponse ⟨some ⟨some "u1", some "haru256"⟩⟩))) := by
  obtain ⟨s, e, hs, he, hreq, hres⟩ :=
    C2_unformatted_bodies MyService.sampleMarshal MyService.sampleSprintv
      MyService.GetUserHandler () (MyService.getUserRequest "u1") MyService.world0
      (MyService.GetUserHandler () (MyService.getUserRequest "u1")
        (entryWorld MyService.sampleMarshal MyService.sampleSprintv false ()
          (MyService.getUserRequest "u1") MyService.world0)).2
      ⟨.proto (.GetUserResponse ⟨some ⟨some "u1", some "haru256"⟩⟩)⟩ (by rfl)
  refine ⟨s, e, ?_, hreq, hres⟩
  rw [he]
  have hs2 : [Event.log s, Event.invoke () (MyService.getUserRequest "u1")] =
      (entryWorld MyService.sampleMarshal MyService.sampleSprintv false ()
        (MyService.getUserRequest "u1") MyService.world0).trace := by
    rw [hs]; rfl
  have ht : (MyService.GetUserHandler () (MyService.getUserRequest "u1")
        (entryWorld MyService.sampleMarshal MyService.sampleSprintv false ()
          (MyService.getUserRequest "u1") MyService.world0)).2.trace =
      (entryWorld MyService.sampleMarshal MyService.sampleSprintv false ()
          (MyService.getUserRequest "u1") MyService.world0).trace ++
        [.log ⟨(), .Info, "--- [Server Logic] GetUser called ---", []⟩] := by
    rfl
  rw [ht, ← hs2]
  rfl

/-- C2 as stated fails: two calls with different payloads hand different
request_body values and different response_body values to the logger; the
values are the payloads, not one fixed empty value. -/
theorem C2_suppressed_emptiness_counterexample :
    (NewUnaryInterceptorWithEmptyBody MyService.GetUserHandler ()
        (MyService.getUserRequest "u1") MyService.world0).2.attrValues "request_body" =
      [.Any (.proto (.GetUserRequest ⟨some "u1"⟩))] ∧
    (NewUnaryInterceptorWithEmptyBody MyService.GetUserHandler ()
        (MyService.getUserRequest "u2") MyService.world0).2.attrValues "request_body" =
      [.Any (.proto (.GetUserRequest ⟨some "u2"⟩))] ∧
    (NewUnaryInterceptorWithEmptyBody MyService.GetUserHandler ()
        (MyService.getUserRequest "u1") MyService.world0).2.attrValues "response_body" =
      [.Any (.proto (.GetUserResponse ⟨some ⟨some "u1", some "haru256"⟩⟩))] ∧
    (NewUnaryInterceptorWithEmptyBody MyService.GetUserHandler ()
        (MyService.getUserRequest "u2") MyService.world0).2.attrValues "response_body" =
      [.Any (.proto (.GetUserResponse ⟨some ⟨some "u2", some "haru256"⟩⟩))] ∧
    (NewUnaryInterceptorWithEmptyBody MyService.GetUserHandler ()
        (MyService.getUserRequest "u1") MyService.world0).2.attrValues "request_body" ≠
      (NewUnaryInterceptorWithEmptyBody MyService.GetUserHandler ()
        (MyService.getUserRequest "u2") MyService.world0).2.attrValues "request_body" ∧
    (NewUnaryInterceptorWithEmptyBody MyService.GetUserHandler ()
        (MyService.getUserRequest "u1") MyService.world0).2.attrValues "response_body" ≠
      (NewUnaryInterceptorWithEmptyBody MyService.GetUserHandler ()
        (MyService.getUserRequest "u2") MyService.world0).2.attrValues "response_body" := by
  refine ⟨by rfl, by rfl, by rfl, by rfl, by decide, by decide⟩

/-! ## The end record: error or response body, code, level (C3, C4, C8) -/

/-- A call that returns has an end record, the last event of its trace: the
error end record when the handler returned an error, the success end record
otherwise. -/
theorem completed_end_record {Ctx M V : Type} (marshal : Marshaler M) (sprintv : M → String)
    (parsed : Bool) (next : UnaryFunc Ctx M V) (ctx : Ctx) (req : AnyRequest M V)
    (w w3 : World Ctx M V) (res : Option (AnyResponse M V)) (err : Option Error)
    (hdone : selectInterceptor marshal sprintv parsed next ctx req w = (.ret res err, w3)) :
    ∃ w2, (next ctx req (entryWorld marshal sprintv parsed ctx req w)) = (.ret res err, w2) ∧
      ((∃ e, err = some e ∧
          w3.trace = w2.trace ++ [.log (errorEndRecord ctx req w2 w.now e)]) ∨
        (∃ r, err = none ∧ res = some r ∧
          w3.trace = w2.trace ++
            [.log (successEndRecord marshal sprintv parsed ctx req w2 w.now r)])) := by
  rcases hn : next ctx req (entryWorld marshal sprintv parsed ctx req w) with ⟨o, w2⟩
  cases o with
  | panic p =>
    rw [run_panic marshal sprintv parsed next ctx req w w2 p hn] at hdone
    simp at hdone
  | ret res2 err2 =>
    cases err2 with
    | some e =>
      rw [run_error marshal sprintv parsed next ctx req w w2 res2 e hn] at hdone
      simp only [Prod.mk.injEq, Outcome.ret.injEq] at hdone
      obtain ⟨⟨hr, he⟩, hw⟩ := hdone
      subst hr he hw
      exact ⟨w2, rfl, Or.inl ⟨e, rfl, rfl⟩⟩
    | none =>
      cases res2 with
      | none =>
        rw [run_nil marshal sprintv parsed next ctx req w w2 hn] at hdone
        simp at hdone
      | some r =>
        rw [run_success marshal sprintv parsed next ctx req w w2 r hn] at hdone
        simp only [Prod.mk.injEq, Outcome.ret.injEq] at hdone
        obtain ⟨⟨hr, he⟩, hw⟩ := hdone
        subst hr he hw
        exact ⟨w2, rfl, Or.inr ⟨r, rfl, rfl, rfl⟩⟩

/-- C3: for every completed call, in both modes, the end record carries
exactly one of the attributes error and response_body: the error attribute,
holding the handler's error, and no response_body attribute if and only if the
handler returned an error; otherwise a response_body attribute and no error
attribute. -/
theorem C3_error_or_response_body {Ctx M V : Type} (marshal : Marshaler M)
    (sprintv : M → String) (parsed : Bool) (next : UnaryFunc Ctx M V) (ctx : Ctx)
    (req : AnyRequest M V) (w w3 : World Ctx M V) (res : Option (AnyResponse M V))
    (err : Option Error)
    (hdone : selectInterceptor marshal sprintv parsed next ctx req w = (.ret res err, w3)) :
    ∃ e : Record Ctx M V, w3.trace.getLast? = some (.log e) ∧
      (e.Attrs.filter (fun a => a.Key == "error" || a.Key == "response_body")).length = 1 ∧
      ((e.hasAttr "error" = true ∧ e.hasAttr "response_body" = false ∧
          e.attr "error" = err.map .AnyError) ↔ err ≠ none) ∧
      ((e.hasAttr "response_body" = true ∧ e.hasAttr "error" = false) ↔ err = none) := by
  obtain ⟨w2, _, hcase⟩ :=
    completed_end_record marshal sprintv parsed next ctx req w w3 res err hdone
  rcases hcase with ⟨e, he, ht⟩ | ⟨r, he, _, ht⟩
  · refine ⟨errorEndRecord ctx req w2 w.now e, by simp [ht], ?_, ?_, ?_⟩ <;>
      simp [he, errorEndRecord, Record.hasAttr, Record.attr, slogString, slogDuration,
        slogAnyError]
  · refine ⟨successEndRecord marshal sprintv parsed ctx req w2 w.now r, by simp [ht], ?_, ?_, ?_⟩ <;>
      simp [he, successEndRecord, Record.hasAttr, Record.attr, slogString, slogDuration,
        slogAny]

/-- C3 at a concrete input: the GetUser handler asked for the user "error". -/
theorem C3_error_or_response_body_witness :
    ∃ e : Record Unit MyService.Message Unit,
      (selectInterceptor MyService.sampleMarshal MyService.sampleSprintv true
          MyService.GetUserHandler () (MyService.getUserRequest "error")
          MyService.world0).2.trace.getLast? = some (.log e) ∧
      e.hasAttr "error" = true ∧ e.hasAttr "response_body" = false ∧
      e.attr "error" = some (.AnyError (NewError CodeNotFound (errorsNew "user not found"))) := by
  obtain ⟨e, hlast, _, herr, _⟩ :=
    C3_error_or_response_body MyService.sampleMarshal MyService.sampleSprintv true
      MyService.GetUserHandler () (MyService.getUserRequest "error") MyService.world0
      (selectInterceptor MyService.sampleMarshal MyService.sampleSprintv true
          MyService.GetUserHandler () (MyService.getUserRequest "error") MyService.world0).2
      none (some (NewError CodeNotFound (errorsNew "user not found"))) (by rfl)
  obtain ⟨h1, h2, h3⟩ := herr.mpr (by simp)
  exact ⟨e, hlast, h1, h2, h3⟩

/-- C4, as amended: in both modes, whenever the wrapped handler returns an
error, or no error and a response, the end record is emitted and its code
attribute is the string form of the success value 0 when there is no error,
and the string form of the code derived from the error when there is one.  The
GetUser handler asked for the user "error" returns a not-found error, and the
logged code is the not-found value of the taxonomy. -/
theorem C4_status_code {Ctx M V : Type} (marshal : Marshaler M) (sprintv : M → String)
    (parsed : Bool) (next : UnaryFunc Ctx M V) (ctx : Ctx) (req : AnyRequest M V)
    (w w2 : World Ctx M V) (res : Option (AnyResponse M V)) (err : Option Error)
    (h : next ctx req (entryWorld marshal sprintv parsed ctx req w) = (.ret res err, w2))
    (hc : Completes res err) :
    (∃ e : Record Ctx M V,
        (selectInterceptor marshal sprintv parsed next ctx req w).2.trace =
          w2.trace ++ [.log e] ∧
        e.attr "code" = some (.String (Code.String (codeFor err))) ∧
        (err = none → e.attr "code" = some (.String (Code.String 0))) ∧
        (∀ x, err = some x → e.attr "code" = some (.String (Code.String (CodeOf x))))) ∧
      (∀ (Ctx2 V2 : Type) (marshal2 : Marshaler MyService.Message)
          (sprintv2 : MyService.Message → String) (parsed2 : Bool) (ctx2 : Ctx2) (spec : Spec)
          (v : World Ctx2 MyService.Message V2),
        (MyService.GetUserHandler ctx2 ⟨spec, .proto (.GetUserRequest ⟨some "error"⟩)⟩
            (entryWorld marshal2 sprintv2 parsed2 ctx2
              ⟨spec, .proto (.GetUserRequest ⟨some "error"⟩)⟩ v)).1 =
          .ret none (some (NewError CodeNotFound (errorsNew "user not found"))) ∧
        CodeOf (NewError CodeNotFound (errorsNew "user not found")) = CodeNotFound ∧
        ∃ e : Record Ctx2 MyService.Message V2,
          (selectInterceptor marshal2 sprintv2 parsed2 MyService.GetUserHandler ctx2
              ⟨spec, .proto (.GetUserRequest ⟨some "error"⟩)⟩ v).2.trace.getLast? =
            some (.log e) ∧
          e.attr "code" = some (.String (Code.String CodeNotFound))) := by
  constructor
  · cases err with
    | some x =>
      refine ⟨errorEndRecord ctx req w2 w.now x, ?_, ?_, ?_, ?_⟩
      · rw [run_error marshal sprintv parsed next ctx req w w2 res x h]
      · simp [Record.attr, errorEndRecord, slogString, slogDuration, slogAnyError, codeFor]
      · intro hx; simp at hx
      · intro y hy
        simp only [Option.some.injEq] at hy
        subst hy
        simp [Record.attr, errorEndRecord, slogString, slogDuration, slogAnyError]
    | none =>
      cases res with
      | none => exact absurd hc (by simp [Completes])
      | some r =>
        refine ⟨successEndRecord marshal sprintv parsed ctx req w2 w.now r, ?_, ?_, ?_, ?_⟩
        · rw [run_success marshal sprintv parsed next ctx req w w2 r h]
        · simp [Record.attr, successEndRecord, slogString, slogDuration, slogAny, codeFor]
        · intro _
          simp [Record.attr, successEndRecord, slogString, slogDuration, slogAny]
        · intro y hy; simp at hy
  · intro Ctx2 V2 marshal2 sprintv2 parsed2 ctx2 spec v
    have hget : MyService.GetUserHandler ctx2 ⟨spec, .proto (.GetUserRequest ⟨some "error"⟩)⟩
          (entryWorld marshal2 sprintv2 parsed2 ctx2
            ⟨spec, .proto (.GetUserRequest ⟨some "error"⟩)⟩ v) =
        (.ret none (some (NewError CodeNotFound (errorsNew "user not found"))),
          ErrorContext
            (InfoContext (entryWorld marshal2 sprintv2 parsed2 ctx2
                ⟨spec, .proto (.GetUserRequest ⟨some "error"⟩)⟩ v) ctx2
              "--- [Server Logic] GetUser called ---" [])
            ctx2 "User not found" [slogString "userId" "error"]) := by
      simp [MyService.GetUserHandler, MyService.GetUser, MyService.GetUserRequest.GetUserId]
    refine ⟨by rw [hget], rfl, ?_⟩
    rw [run_error marshal2 sprintv2 parsed2 MyService.GetUserHandler ctx2 _ v _ none _ hget]
    refine ⟨_, List.getLast?_concat _, ?_⟩
    simp [Record.attr, errorEndRecord, slogString, slogDuration, slogAnyError, CodeOf, NewError]

/-- C4 at a concrete input: the GetUser handler asked for user u1 succeeds, and
the logged code is the string form of 0. -/
theorem C4_status_code_witness :
    ∃ e : Record Unit MyService.Message Unit,
      (selectInterceptor MyService.sampleMarshal MyService.sampleSprintv false
          MyService.GetUserHandler () (MyService.getUserRequest "u1")
          MyService.world0).2.trace.getLast? = some (.log e) ∧
      e.attr "code" = some (.String "code_0") := by
  obtain ⟨⟨e, ht, _, h0, _⟩, _⟩ :=
    C4_status_code MyService.sampleMarshal MyService.sampleSprintv false
      MyService.GetUserHandler () (MyService.getUserRequest "u1") MyService.world0
      (MyService.GetUserHandler () (MyService.getUserRequest "u1")
        (entryWorld MyService.sampleMarshal MyService.sampleSprintv false ()
          (MyService.getUserRequest "u1") MyService.world0)).2
      (some ⟨.proto (.GetUserResponse ⟨some ⟨some "u1", some "haru256"⟩⟩)⟩) none
      (by rfl) (by decide)
  refine ⟨e, by simp [ht], ?_⟩
  have h := h0 rfl
  simpa [Code.String] using h

/-- C4 as stated fails: a handler that returns no error and a nil response
leaves no end record, so no code attribute is logged at all, in both modes. -/
theorem C4_status_code_counterexample :
    (MyService.nilHandler () (MyService.getUserRequest "u1")
        (entryWorld MyService.sampleMarshal MyService.sampleSprintv false ()
          (MyService.getUserRequest "u1") MyService.world0)).1 = .ret none none ∧
      (NewUnaryInterceptorWithEmptyBody MyService.nilHandler ()
          (MyService.getUserRequest "u1") MyService.world0).2.attrValues "code" = [] ∧
      (NewUnaryInterceptorWithBody MyService.sampleMarshal MyService.sampleSprintv
          MyService.nilHandler () (MyService.getUserRequest "u1")
          MyService.world0).2.attrValues "code" = [] := by
  refine ⟨by rfl, by rfl, by rfl⟩

/-- C8, as amended: in both modes and for every call the start record is
emitted at info level, before the handler runs and whatever the handler then
does; whenever the handler returns an error, or no error and a response, the
end record is emitted, at error level if and only if the handler returned an
error, and at info level otherwise. -/
theorem C8_log_levels {Ctx M V : Type} (marshal : Marshaler M) (sprintv : M → String)
    (parsed : Bool) (next : UnaryFunc Ctx M V) (ctx : Ctx) (req : AnyRequest M V)
    (w : World Ctx M V) :
    (∃ s : Record Ctx M V, s.Level = .Info ∧ s.Message = "request Start" ∧
        (entryWorld marshal sprintv parsed ctx req w).trace =
          w.trace ++ [.log s, .invoke ctx req] ∧
        ∃ tail, (selectInterceptor marshal sprintv parsed next ctx req w).2.trace =
          (next ctx req (entryWorld marshal sprintv parsed ctx req w)).2.trace ++ tail) ∧
      (∀ res err w2,
        next ctx req (entryWorld marshal sprintv parsed ctx req w) = (.ret res err, w2) →
        Completes res err →
        ∃ e : Record Ctx M V,
          (selectInterceptor marshal sprintv parsed next ctx req w).2.trace =
            w2.trace ++ [.log e] ∧
          (e.Level = .Error ↔ err ≠ none) ∧ (e.Level = .Info ↔ err = none)) := by
  constructor
  · obtain ⟨tail, _, ht⟩ := run_trace_tail marshal sprintv parsed next ctx req w
    exact ⟨startRecord marshal sprintv parsed ctx req, rfl, rfl, rfl, tail, ht⟩
  · intro res err w2 h hc
    cases err with
    | some x =>
      refine ⟨errorEndRecord ctx req w2 w.now x, ?_, by simp [errorEndRecord],
        by simp [errorEndRecord]⟩
      rw [run_error marshal sprintv parsed next ctx req w w2 res x h]
    | none =>
      cases res with
      | none => exact absurd hc (by simp [Completes])
      | some r =>
        refine ⟨successEndRecord marshal sprintv parsed ctx req w2 w.now r, ?_,
          by simp [successEndRecord], by simp [successEndRecord]⟩
        rw [run_success marshal sprintv parsed next ctx req w w2 r h]

/-- C8 at concrete inputs: the levels of the end records of a failing and of a
successful GetUser call. -/
theorem C8_log_levels_witness :
    (∃ e : Record Unit MyService.Message Unit,
        (selectInterceptor MyService.sampleMarshal MyService.sampleSprintv true
            MyService.GetUserHandler () (MyService.getUserRequest "error")
            MyService.world0).2.trace.getLast? = some (.log e) ∧ e.Level = .Error) ∧
      (∃ e : Record Unit MyService.Message Unit,
        (selectInterceptor MyService.sampleMarshal MyService.sampleSprintv true
            MyService.GetUserHandler () (MyService.getUserRequest "u1")
            MyService.world0).2.trace.getLast? = some (.log e) ∧ e.Level = .Info) := by
  constructor
  · obtain ⟨e, ht, herr, _⟩ :=
      (C8_log_levels MyService.sampleMarshal MyService.sampleSprintv true
        MyService.GetUserHandler () (MyService.getUserRequest "error") MyService.world0).2
        none (some (NewError CodeNotFound (errorsNew "user not found")))
        (MyService.GetUserHandler () (MyService.getUserRequest "error")
          (entryWorld MyService.sampleMarshal MyService.sampleSprintv true ()
            (MyService.getUserRequest "error") MyService.world0)).2
        (by rfl) (by decide)
    exact ⟨e, by simp [ht], herr.mpr (by simp)⟩
  · obtain ⟨e, ht, _, hinfo⟩ :=
      (C8_log_levels MyService.sampleMarshal MyService.sampleSprintv true
        MyService.GetUserHandler () (MyService.getUserRequest "u1") MyService.world0).2
        (some ⟨.proto (.GetUserResponse ⟨some ⟨some "u1", some "haru256"⟩⟩)⟩) none
        (MyService.GetUserHandler () (MyService.getUserRequest "u1")
          (entryWorld MyService.sampleMarshal MyService.sampleSprintv true ()
            (MyService.getUserRequest "u1") MyService.world0)).2
        (by rfl) (by decide)
    exact ⟨e, by simp [ht], hinfo.mpr rfl⟩

/-- C8 as stated fails: behind a handler that returns no error and a nil
response the only record of the call is the start record; no end record is
emitted, at info level or at any other. -/
theorem C8_log_levels_counterexample :
    (MyService.nilHandler () (MyService.getUserRequest "u1")
        (entryWorld MyService.sampleMarshal MyService.sampleSprintv true ()
          (MyService.getUserRequest "u1") MyService.world0)).1 = .ret none none ∧
      (NewUnaryInterceptorWithBody MyService.sampleMarshal MyService.sampleSprintv
          MyService.nilHandler () (MyService.getUserRequest "u1")
          MyService.world0).2.records.map (fun r => (r.Message, r.Level)) =
        [("request Start", .Info)] ∧
      (NewUnaryInterceptorWithEmptyBody MyService.nilHandler ()
          (MyService.getUserRequest "u1")
          MyService.world0).2.records.map (fun r => (r.Message, r.Level)) =
        [("request Start", .Info)] := by
  refine ⟨by rfl, by rfl, by rfl⟩

/-! ## formatLogValue (C5, C6, C7) -/

/-- C5: for every message whose structured serialization returns an error,
formatLogValue returns the generic text form of the message, a string, and no
error.  formatLogValue is total: on every input it returns the input itself,
the serializer's bytes as raw JSON, or that text form. -/
theorem C5_fallback_safety {M V : Type} (marshal : Marshaler M) (sprintv : M → String)
    (m : M) (e : String)
    (h : marshal { Multiline := false, EmitUnpopulated := false } m = .error e) :
    formatLogValue marshal sprintv (.proto m : AnyValue M V) = .string (sprintv m) ∧
      ∀ msg : AnyValue M V,
        ((∀ x, msg ≠ .proto x) ∧ formatLogValue marshal sprintv msg = msg) ∨
        (∃ x b, msg = .proto x ∧
          marshal { Multiline := false, EmitUnpopulated := false } x = .ok b ∧
          formatLogValue marshal sprintv msg = .rawMessage b) ∨
        (∃ x e2, msg = .proto x ∧
          marshal { Multiline := false, EmitUnpopulated := false } x = .error e2 ∧
          formatLogValue marshal sprintv msg = .string (sprintv x)) := by
  constructor
  · simp [formatLogValue, formatLogValueRun, h]
  · intro msg
    cases msg with
    | proto x =>
      cases hx : marshal { Multiline := false, EmitUnpopulated := false } x with
      | ok b =>
        exact Or.inr (Or.inl ⟨x, b, rfl, hx, by simp [formatLogValue, formatLogValueRun, hx]⟩)
      | error e2 =>
        exact Or.inr (Or.inr ⟨x, e2, rfl, hx, by simp [formatLogValue, formatLogValueRun, hx]⟩)
    | nil => exact Or.inl ⟨fun x hx => (by cases hx), rfl⟩
    | rawMessage b => exact Or.inl ⟨fun x hx => (by cases hx), rfl⟩
    | string t => exact Or.inl ⟨fun x hx => (by cases hx), rfl⟩
    | other v => exact Or.inl ⟨fun x hx => (by cases hx), rfl⟩

/-- C5 at a concrete input: a serializer forced to fail, on the request for
user u1. -/
theorem C5_fallback_safety_witness :
    formatLogValue MyService.failingMarshal MyService.sampleSprintv
        (.proto (.GetUserRequest ⟨some "u1"⟩) : AnyValue MyService.Message Unit) =
      .string "user_id:\"u1\"" :=
  (C5_fallback_safety MyService.failingMarshal MyService.sampleSprintv
    (.GetUserRequest ⟨some "u1"⟩) "proto: invalid UTF-8" rfl).1

/-- C6: for every value that is not a proto message, formatLogValue returns
that same value and makes no call of the serializer. -/
theorem C6_pass_through {M V : Type} (marshal : Marshaler M) (sprintv : M → String)
    (v : AnyValue M V) (h : ∀ m, v ≠ .proto m) :
    formatLogValue marshal sprintv v = v ∧ formatLogValueRun marshal sprintv v = (v, []) := by
  cases v with
  | proto m => exact absurd rfl (h m)
  | nil => exact ⟨rfl, rfl⟩
  | rawMessage b => exact ⟨rfl, rfl⟩
  | string t => exact ⟨rfl, rfl⟩
  | other x => exact ⟨rfl, rfl⟩

/-- C6 at a concrete input: a plain string is returned as it is. -/
theorem C6_pass_through_witness :
    formatLogValue MyService.failingMarshal MyService.sampleSprintv
        (.string "plain" : AnyValue MyService.Message Unit) = .string "plain" ∧
      formatLogValueRun MyService.failingMarshal MyService.sampleSprintv
        (.string "plain" : AnyValue MyService.Message Unit) = (.string "plain", []) :=
  C6_pass_through MyService.failingMarshal MyService.sampleSprintv (.string "plain")
    (fun m hm => by cases hm)

/-- C7: for every message whose serialization succeeds, formatLogValue returns
exactly the serializer's bytes as raw JSON, from one call of the serializer
with Multiline false and EmitUnpopulated false.  With formatted bodies the
request_body of the start record is formatLogValue of the request payload, so
the request with user_id u1 is logged as the single-line text that holds u1
and no unset field. -/
theorem C7_structured_fidelity {M V : Type} (marshal : Marshaler M) (sprintv : M → String)
    (m : M) (bytes : String)
    (h : marshal { Multiline := false, EmitUnpopulated := false } m = .ok bytes) :
    formatLogValueRun marshal sprintv (.proto m : AnyValue M V) =
        (.rawMessage bytes, [({ Multiline := false, EmitUnpopulated := false }, m)]) ∧
      formatLogValue marshal sprintv (.proto m : AnyValue M V) = .rawMessage bytes ∧
      (∀ (Ctx : Type) (next : UnaryFunc Ctx M V) (ctx : Ctx) (req : AnyRequest M V)
          (w : World Ctx M V),
        ∃ s : Record Ctx M V,
          (entryWorld marshal sprintv true ctx req w).trace =
            w.trace ++ [.log s, .invoke ctx req] ∧
          (∃ tail, (NewUnaryInterceptorWithBody marshal sprintv next ctx req w).2.trace =
            (next ctx req (entryWorld marshal sprintv true ctx req w)).2.trace ++ tail) ∧
          s.attr "request_body" = some (.Any (formatLogValue marshal sprintv req.Any)) ∧
          (req.Any = .proto m → s.attr "request_body" = some (.Any (.rawMessage bytes)))) ∧
      (MyService.sampleMarshal { Multiline := false, EmitUnpopulated := false }
          (.GetUserRequest ⟨some "u1"⟩) = .ok "\x7b\"userId\":\"u1\"\x7d" ∧
        MyService.sampleMarshal { Multiline := false, EmitUnpopulated := false }
          (.User ⟨some "u1", none⟩) = .ok "\x7b\"userId\":\"u1\"\x7d" ∧
        Char.ofNat 10 ∉ "\x7b\"userId\":\"u1\"\x7d".toList ∧
        ∀ (Ctx V2 : Type) (ctx : Ctx) (spec : Spec) (w : World Ctx MyService.Message V2),
          (startRecord MyService.sampleMarshal MyService.sampleSprintv true ctx
              (⟨spec, .proto (.GetUserRequest ⟨some "u1"⟩)⟩ :
                AnyRequest MyService.Message V2)).attr "request_body" =
            some (.Any (.rawMessage "\x7b\"userId\":\"u1\"\x7d")) ∧
          (entryWorld MyService.sampleMarshal MyService.sampleSprintv true ctx
              ⟨spec, .proto (.GetUserRequest ⟨some "u1"⟩)⟩ w).trace =
            w.trace ++
              [.log (startRecord MyService.sampleMarshal MyService.sampleSprintv true ctx
                  ⟨spec, .proto (.GetUserRequest ⟨some "u1"⟩)⟩),
                .invoke ctx ⟨spec, .proto (.GetUserRequest ⟨some "u1"⟩)⟩]) := by
  have hfmt : formatLogValue marshal sprintv (.proto m : AnyValue M V) = .rawMessage bytes := by
    simp [formatLogValue, formatLogValueRun, h]
  have hsample : MyService.sampleMarshal { Multiline := false, EmitUnpopulated := false }
      (.GetUserRequest ⟨some "u1"⟩) = .ok "\x7b\"userId\":\"u1\"\x7d" := by
    rfl
  refine ⟨by simp [formatLogValueRun, h], hfmt, ?_, hsample, by rfl, by decide, ?_⟩
  · intro Ctx next ctx req w
    obtain ⟨tail, _, ht⟩ := run_trace_tail marshal sprintv true next ctx req w
    rw [select_true] at ht
    refine ⟨startRecord marshal sprintv true ctx req, rfl, ⟨tail, ht⟩, ?_, ?_⟩
    · simp [Record.attr, startRecord, slogString, slogAny, loggedBody]
    · intro hreq
      simp [Record.attr, startRecord, slogString, slogAny, loggedBody, hreq, hfmt]
  · intro Ctx V2 ctx spec w
    refine ⟨?_, rfl⟩
    simp [Record.attr, startRecord, slogString, slogAny, loggedBody, formatLogValue,
      formatLogValueRun, hsample]

/-- C7 at a concrete input: the sample serializer on the request for user u1. -/
theorem C7_structured_fidelity_witness :
    formatLogValueRun MyService.sampleMarshal MyService.sampleSprintv
        (.proto (.GetUserRequest ⟨some "u1"⟩) : AnyValue MyService.Message Unit) =
      (.rawMessage "\x7b\"userId\":\"u1\"\x7d",
        [({ Multiline := false, EmitUnpopulated := false }, .GetUserRequest ⟨some "u1"⟩)]) :=
  (C7_structured_fidelity MyService.sampleMarshal MyService.sampleSprintv
    (.GetUserRequest ⟨some "u1"⟩) "\x7b\"userId\":\"u1\"\x7d" (by rfl)).1

end Interceptor
